import Mathlib

/-!
Verification of the Slurm batch-scheduler backend
(`jetstream/utils/batch_schedulers/slurm.py`).

The Python module is shallowly embedded: the module-level state tables
become lists of strings, an `sacct` record (an ordered mapping of field
names to strings) becomes an association list, and the stateful loops
(`SlurmJob.update`, `SlurmJob.wait`, `wait_for`) become fuel-indexed
recursions over explicit streams of query results and clock readings.
`none` from a fuel-indexed loop means the fuel ran out while the Python
loop would still be iterating; `some` results are exactly the outcomes
the Python code can produce.
-/

namespace Slurm

/-- The `states` table: every state string documented by the module,
with its description, in source order. -/
def states : List (String × String) := [
  ("BOOT_FAIL", "Job terminated due to launch failure, typically due to a hardware failure (e.g. unable to boot the node or block and the job can not be requeued)."),
  ("CANCELLED", "Job was explicitly cancelled by the user or system administrator. The job may or may not have been initiated."),
  ("COMPLETED", "Job has terminated all processes on all nodes with an exit code of zero."),
  ("CONFIGURING", "Job has been allocated resources, but are waiting for them to become ready for use (e.g. booting)."),
  ("COMPLETING", "Job is in the process of completing. Some processes on some nodes may still be active."),
  ("FAILED", "Job terminated with non-zero exit code or other failure condition."),
  ("NODE_FAIL", "Job terminated due to failure of one or more allocated nodes."),
  ("PENDING", "Job is awaiting resource allocation."),
  ("PREEMPTED", "Job terminated due to preemption."),
  ("REVOKED", "Sibling was removed from cluster due to other cluster starting the job."),
  ("RUNNING", "Job currently has an allocation."),
  ("SPECIAL_EXIT", "The job was requeued in a special state. This state can be set by users, typically in EpilogSlurmctld, if the job has terminated with a particular exit value."),
  ("STOPPED", "Job has an allocation, but execution has been stopped with SIGSTOP signal. CPUS have been retained by this job."),
  ("SUSPENDED", "Job has an allocation, but execution has been suspended and CPUs have been released for other jobs."),
  ("TIMEOUT", "Job terminated upon reaching its time limit.")]

/-- The keys of the `states` table: the documented state vocabulary. -/
def statesKeys : List String := states.map (fun p => p.1)

/-- `active_states` from the source. -/
def active_states : List String :=
  ["CONFIGURING", "COMPLETING", "RUNNING", "SPECIAL_EXIT", "PENDING"]

/-- `inactive_states` from the source. -/
def inactive_states : List String :=
  ["BOOT_FAIL", "CANCELLED", "COMPLETED", "FAILED", "NODE_FAIL",
   "PREEMPTED", "REVOKED", "STOPPED", "SUSPENDED", "TIMEOUT"]

/-- `failed_states` from the source. -/
def failed_states : List String := ["BOOT_FAIL", "CANCELLED", "FAILED", "NODE_FAIL"]

/-- `completed_states` from the source. -/
def completed_states : List String := ["COMPLETED"]

/-- An sacct accounting record: an ordered mapping of field names to
string values (`OrderedDict(zip(header, line.split(...)))`). -/
abbrev Record := List (String × String)

/-- A `SlurmJob` handle: integer job id, cluster qualifier, and the
stored sacct record. -/
structure SlurmJob where
  jid : Nat
  cluster : List Char
  sacct : Record
  deriving Repr, DecidableEq

/-- `SlurmJob.status`: the State field of the stored record, or the
sentinel string when the field is missing (KeyError branch). -/
def SlurmJob.status (j : SlurmJob) : String :=
  match j.sacct.lookup "State" with
  | some s => s
  | none => "unknown"

/-- Classification of a raw state string as active
(`status in active_states`). -/
def isActiveState (s : String) : Bool := active_states.contains s

/-- Classification of a raw state string as failed
(`status in failed_states`). -/
def isFailedState (s : String) : Bool := failed_states.contains s

/-- Classification of a raw state string as complete
(`status in completed_states`). -/
def isCompleteState (s : String) : Bool := completed_states.contains s

/-- `SlurmJob.is_active`. -/
def SlurmJob.is_active (j : SlurmJob) : Bool := isActiveState j.status

/-- `SlurmJob.is_failed`. -/
def SlurmJob.is_failed (j : SlurmJob) : Bool := isFailedState j.status

/-- `SlurmJob.is_complete`. -/
def SlurmJob.is_complete (j : SlurmJob) : Bool := isCompleteState j.status

end Slurm

namespace Slurm

/-- C1 counterexample: PREEMPTED is in the inactive (terminal) vocabulary
and is not COMPLETED, yet the classification does not mark it failed: a
handle whose record carries State = PREEMPTED has `is_failed` false. -/
theorem preempted_not_failed :
    "PREEMPTED" ∈ inactive_states ∧ "PREEMPTED" ≠ "COMPLETED" ∧
    isFailedState "PREEMPTED" = false ∧
    SlurmJob.is_failed ⟨1, [], [("State", "PREEMPTED")]⟩ = false := by
  refine ⟨by decide, by decide, by decide, by decide⟩

/-- C1 amended: among the terminal (inactive) states other than
COMPLETED, `is_failed` holds exactly for the members of `failed_states`
(BOOT_FAIL, CANCELLED, FAILED, NODE_FAIL); the remaining terminal states
(PREEMPTED, REVOKED, STOPPED, SUSPENDED, TIMEOUT) are not classified as
failed. -/
theorem failed_iff_in_failed_states :
    (∀ s ∈ inactive_states, s ∉ completed_states →
      (SlurmJob.is_failed ⟨1, [], [("State", s)]⟩ = true ↔ s ∈ failed_states)) ∧
    inactive_states.filter
      (fun s => !(s ∈ completed_states : Bool) && !isFailedState s)
      = ["PREEMPTED", "REVOKED", "STOPPED", "SUSPENDED", "TIMEOUT"] := by
  constructor
  · decide
  · decide

/-- C1 witness: the amended statement applied at BOOT_FAIL. -/
theorem failed_iff_in_failed_states_witness :
    SlurmJob.is_failed ⟨1, [], [("State", "BOOT_FAIL")]⟩ = true :=
  (failed_iff_in_failed_states.1 "BOOT_FAIL" (by decide) (by decide)).mpr (by decide)

/-! ## The blocking wait loop of a single handle (`SlurmJob.wait`) -/

/-- The status a record yields through a handle: its State field, or the
sentinel. -/
def recordStatus (r : Record) : String :=
  match r.lookup "State" with
  | some s => s
  | none => "unknown"

/-- Python truthiness-guarded timeout test `timeout and elapsed > timeout`:
`none` models `timeout=None`, and a zero value is falsy, so neither ever
triggers. -/
def timeoutTruthy (timeout : Option Nat) (elapsed : Nat) : Bool :=
  match timeout with
  | none => false
  | some t => !(t == 0) && decide (elapsed > t)

/-- Outcome of `SlurmJob.wait`: the loop broke and returned the final
status, or `TimeoutError` was raised. -/
inductive WaitOutcome where
  | finished (status : String)
  | timedOut
  deriving Repr, DecidableEq

/-- `SlurmJob.wait`, fuel-indexed. `records i` is the sacct record that
the `self.update()` call of iteration `i` stores (updates are assumed to
succeed; a failing update would propagate its own error), and
`elapsedAt i` is the elapsed clock reading taken at the top of iteration
`i`. Each iteration updates, breaks when the handle is no longer active,
and otherwise raises `TimeoutError` when the truthy timeout is exceeded. -/
def waitLoop (records : Nat → Record) (timeout : Option Nat)
    (elapsedAt : Nat → Nat) : Nat → Nat → Option WaitOutcome
  | 0, _ => none
  | fuel + 1, i =>
    let s := recordStatus (records i)
    if isActiveState s = false then some (WaitOutcome.finished s)
    else if timeoutTruthy timeout (elapsedAt i) then some WaitOutcome.timedOut
    else waitLoop records timeout elapsedAt fuel (i + 1)

/-- C2 counterexample: a record with no State field gives the sentinel
status, but such a handle is NOT active, so `wait` exits on its very
first iteration with status unknown rather than continuing to wait. -/
theorem wait_exits_on_unknown :
    SlurmJob.status ⟨1, [], [("JobID", "1")]⟩ = "unknown" ∧
    SlurmJob.is_active ⟨1, [], [("JobID", "1")]⟩ = false ∧
    waitLoop (fun _ => [("JobID", "1")]) none (fun _ => 0) 5 0 =
      some (WaitOutcome.finished "unknown") := by
  refine ⟨rfl, by decide, rfl⟩

/-- C2 amended: a handle whose record has no State field has status
unknown, and the sentinel is never classified as failed or complete; but
it is not classified as active either, so the blocking wait loop exits
immediately (in its first iteration) while the status is unknown. -/
theorem unknown_status_behaviour (r : Record) (h : r.lookup "State" = none) :
    (∀ jid cluster, SlurmJob.status ⟨jid, cluster, r⟩ = "unknown" ∧
      SlurmJob.is_active ⟨jid, cluster, r⟩ = false ∧
      SlurmJob.is_failed ⟨jid, cluster, r⟩ = false ∧
      SlurmJob.is_complete ⟨jid, cluster, r⟩ = false) ∧
    (∀ records timeout elapsedAt fuel i, records i = r →
      waitLoop records timeout elapsedAt (fuel + 1) i =
        some (WaitOutcome.finished "unknown")) := by
  have hst : ∀ jid cluster, SlurmJob.status ⟨jid, cluster, r⟩ = "unknown" := by
    intro jid cluster
    simp [SlurmJob.status, h]
  refine ⟨fun jid cluster => ⟨hst jid cluster, ?_, ?_, ?_⟩, ?_⟩
  · unfold SlurmJob.is_active; rw [hst jid cluster]; decide
  · unfold SlurmJob.is_failed; rw [hst jid cluster]; decide
  · unfold SlurmJob.is_complete; rw [hst jid cluster]; decide
  · intro records timeout elapsedAt fuel i hi
    have hr : recordStatus (records i) = "unknown" := by
      simp [recordStatus, hi, h]
    have ha : isActiveState "unknown" = false := by decide
    simp [waitLoop, hr, ha]

/-- C2 witness: the amended statement applied to a concrete record
lacking a State field. -/
theorem unknown_status_behaviour_witness :
    SlurmJob.status ⟨7, [], [("JobID", "7")]⟩ = "unknown" ∧
    waitLoop (fun _ => [("JobID", "7")]) none (fun _ => 0) 3 0 =
      some (WaitOutcome.finished "unknown") :=
  ⟨((unknown_status_behaviour [("JobID", "7")] (by decide)).1 7 []).1,
   (unknown_status_behaviour [("JobID", "7")] (by decide)).2
     (fun _ => [("JobID", "7")]) none (fun _ => 0) 2 0 rfl⟩

/-- C3 counterexample: REVOKED is in the documented vocabulary, yet it
satisfies none of the three predicates and its status is the raw string,
not the unknown sentinel: it falls outside all four classes. -/
theorem revoked_unclassified :
    "REVOKED" ∈ statesKeys ∧ isActiveState "REVOKED" = false ∧
    isCompleteState "REVOKED" = false ∧ isFailedState "REVOKED" = false ∧
    SlurmJob.status ⟨1, [], [("State", "REVOKED")]⟩ ≠ "unknown" := by
  refine ⟨by decide, by decide, by decide, by decide, by decide⟩

/-- C3 amended: the classification is disjoint but not total. Every key
of the `states` table satisfies at most one of `isActiveState`,
`isCompleteState`, `isFailedState`; a key carried as a State field is
never the unknown sentinel; and the keys satisfying none of the three
predicates are exactly PREEMPTED, REVOKED, STOPPED, SUSPENDED and
TIMEOUT. -/
theorem classification_disjoint_not_total :
    (∀ s ∈ statesKeys,
      (!(isActiveState s && isCompleteState s) &&
       !(isActiveState s && isFailedState s) &&
       !(isCompleteState s && isFailedState s)) = true ∧
      SlurmJob.status ⟨1, [], [("State", s)]⟩ = s) ∧
    statesKeys.filter
      (fun s => !(isActiveState s || isCompleteState s || isFailedState s))
      = ["PREEMPTED", "REVOKED", "STOPPED", "SUSPENDED", "TIMEOUT"] := by
  constructor
  · decide
  · decide

/-- C3 witness: the amended statement applied at RUNNING. -/
theorem classification_disjoint_not_total_witness :
    (!(isActiveState "RUNNING" && isCompleteState "RUNNING") &&
     !(isActiveState "RUNNING" && isFailedState "RUNNING") &&
     !(isCompleteState "RUNNING" && isFailedState "RUNNING")) = true :=
  (classification_disjoint_not_total.1 "RUNNING" (by decide)).1

/-! ## Accounting-record lookup (`SlurmJob._get_sacct`) and the
update retry loop (`SlurmJob.update`) -/

/-- The `int(...)` conversion: defined on nonempty digit strings, as
produced for job ids by the accounting query and the submit command. -/
def intOfChars (s : List Char) : Option Nat :=
  if s ≠ [] ∧ s.all Char.isDigit then
    some (s.foldl (fun n c => 10 * n + (c.toNat - 48)) 0)
  else none

/-- `int(...)` applied to a string-valued field. -/
def strToNat (s : String) : Option Nat := intOfChars s.toList

/-- `int(r[...])` on the JobID field of a record. -/
def recordJobID (r : Record) : Option Nat :=
  (r.lookup "JobID").bind strToNat

/-- The `SacctOutput` exception, tagged with which branch raised it. -/
inductive SacctError where
  | tooMany (jid : Nat)
  | noRecords (jid : Nat)
  deriving Repr, DecidableEq

/-- `SlurmJob._get_sacct`: filter the query result down to the records
whose JobID equals the handle id; more than one match or no match raises
`SacctOutput`, otherwise the unique match is returned. -/
def get_sacct (jid : Nat) (sacct_data : List Record) : Except SacctError Record :=
  match sacct_data.filter (fun r => recordJobID r == some jid) with
  | [] => Except.error (SacctError.noRecords jid)
  | [r] => Except.ok r
  | _ :: _ :: _ => Except.error (SacctError.tooMany jid)

/-- C5: for every job id and query result in which each JobID field
parses as an integer, `_get_sacct` returns the unique matching record
when exactly one record matches, and raises `SacctOutput` when no record
or more than one record matches. -/
theorem get_sacct_unique_or_raises (jid : Nat) (data : List Record)
    (_hwf : ∀ r ∈ data, (recordJobID r).isSome = true) :
    (∀ r, data.filter (fun r => recordJobID r == some jid) = [r] →
      get_sacct jid data = Except.ok r) ∧
    (data.filter (fun r => recordJobID r == some jid) = [] →
      get_sacct jid data = Except.error (SacctError.noRecords jid)) ∧
    (2 ≤ (data.filter (fun r => recordJobID r == some jid)).length →
      get_sacct jid data = Except.error (SacctError.tooMany jid)) := by
  refine ⟨?_, ?_, ?_⟩
  · intro r hr
    rw [get_sacct, hr]
  · intro hr
    rw [get_sacct, hr]
  · intro hlen
    rw [get_sacct]
    match hm : data.filter (fun r => recordJobID r == some jid) with
    | [] => rw [hm] at hlen; simp at hlen
    | [r] => rw [hm] at hlen; simp at hlen
    | _ :: _ :: _ => rfl

/-- C5 witness: a two-record query result with a unique match for id 12,
no match for id 99, and a duplicated match for id 7. -/
theorem get_sacct_unique_or_raises_witness :
    get_sacct 12 [[("JobID", "12"), ("State", "RUNNING")],
                  [("JobID", "7")], [("JobID", "7")]] =
      Except.ok [("JobID", "12"), ("State", "RUNNING")] ∧
    get_sacct 99 [[("JobID", "12"), ("State", "RUNNING")],
                  [("JobID", "7")], [("JobID", "7")]] =
      Except.error (SacctError.noRecords 99) ∧
    get_sacct 7 [[("JobID", "12"), ("State", "RUNNING")],
                 [("JobID", "7")], [("JobID", "7")]] =
      Except.error (SacctError.tooMany 7) := by
  refine ⟨?_, ?_, ?_⟩
  · exact (get_sacct_unique_or_raises 12 _ (by decide)).1 _ (by decide)
  · exact (get_sacct_unique_or_raises 99 _ (by decide)).2.1 (by decide)
  · exact (get_sacct_unique_or_raises 7 _ (by decide)).2.2 (by decide)

/-- Outcome of one run of the `update` retry loop. -/
inductive UpdateOutcome where
  | updated (r : Record)
  | raised (e : SacctError)
  deriving Repr, DecidableEq

/-- `SlurmJob.update`, fuel-indexed. `attempts i` is the outcome of the
`self._get_sacct()` call of iteration `i`, and `elapsedAt i` is the
elapsed clock reading taken at the top of iteration `i` (before the
attempt). A successful attempt stores the record and breaks; a failing
attempt re-raises the caught `SacctOutput` when the elapsed bound is
exceeded, and otherwise retries. `maxWait` is the integer
`_max_update_wait` of the env-unset default (see the typing model of the
env-set case further below). -/
def updateLoop (attempts : Nat → Except SacctError Record)
    (elapsedAt : Nat → Nat) (maxWait : Nat) : Nat → Nat → Option UpdateOutcome
  | 0, _ => none
  | fuel + 1, i =>
    match attempts i with
    | Except.ok r => some (UpdateOutcome.updated r)
    | Except.error e =>
      if elapsedAt i > maxWait then some (UpdateOutcome.raised e)
      else updateLoop attempts elapsedAt maxWait fuel (i + 1)

/-- `SlurmJob.update` at the handle level: on success the stored sacct
record is replaced; on a raise the assignment never ran, so the handle
is returned unchanged together with the propagated error. -/
def SlurmJob.update (j : SlurmJob) (attempts : Nat → Except SacctError Record)
    (elapsedAt : Nat → Nat) (maxWait : Nat) (fuel : Nat) :
    Option (SlurmJob × Option SacctError) :=
  match updateLoop attempts elapsedAt maxWait fuel 0 with
  | none => none
  | some (UpdateOutcome.updated r) => some ({ j with sacct := r }, none)
  | some (UpdateOutcome.raised e) => some (j, some e)

/-- Helper: the retry loop passes over a block of failing attempts whose
elapsed readings stay within the bound. -/
theorem updateLoop_skip (attempts : Nat → Except SacctError Record)
    (elapsedAt : Nat → Nat) (maxWait : Nat) :
    ∀ n i fuel,
      (∀ k < n, (∃ e, attempts (i + k) = Except.error e) ∧
        elapsedAt (i + k) ≤ maxWait) →
      updateLoop attempts elapsedAt maxWait (n + fuel) i =
        updateLoop attempts elapsedAt maxWait fuel (i + n) := by
  intro n
  induction n with
  | zero => intro i fuel _; rw [Nat.zero_add, Nat.add_zero]
  | succ m ih =>
    intro i fuel hfail
    obtain ⟨⟨e, he⟩, hel⟩ := hfail 0 (Nat.succ_pos m)
    rw [Nat.add_zero] at he hel
    have hstep : updateLoop attempts elapsedAt maxWait (m + 1 + fuel) i =
        updateLoop attempts elapsedAt maxWait (m + fuel) (i + 1) := by
      have h1 : m + 1 + fuel = (m + fuel) + 1 := by omega
      have hnot : ¬ elapsedAt i > maxWait := by omega
      rw [h1, updateLoop, he]
      simp [hnot]
    rw [hstep, ih (i + 1) fuel ?_]
    · congr 1
      omega
    · intro k hk
      have := hfail (k + 1) (by omega)
      constructor
      · obtain ⟨⟨e2, he2⟩, _⟩ := this
        exact ⟨e2, by rw [show i + 1 + k = i + (k + 1) by omega]; exact he2⟩
      · obtain ⟨_, hel2⟩ := this
        rw [show i + 1 + k = i + (k + 1) by omega]
        exact hel2

/-- C4: the update operation retries the accounting query past every
failing attempt whose elapsed reading is within `maxWait`; when an
attempt succeeds the handle stores the returned record, and when an
attempt fails with the elapsed bound exceeded, update re-raises that
last caught `SacctOutput` error and the stored record of the handle is
left unchanged. -/
theorem update_retries_and_raises_last (j : SlurmJob)
    (attempts : Nat → Except SacctError Record) (elapsedAt : Nat → Nat)
    (maxWait n fuel : Nat)
    (hpre : ∀ k < n, (∃ e, attempts k = Except.error e) ∧ elapsedAt k ≤ maxWait) :
    (∀ r, attempts n = Except.ok r →
      j.update attempts elapsedAt maxWait (n + fuel + 1) =
        some ({ j with sacct := r }, none)) ∧
    (∀ e, attempts n = Except.error e → elapsedAt n > maxWait →
      j.update attempts elapsedAt maxWait (n + fuel + 1) =
        some (j, some e)) := by
  have hskip : updateLoop attempts elapsedAt maxWait (n + (fuel + 1)) 0 =
      updateLoop attempts elapsedAt maxWait (fuel + 1) n := by
    have h := updateLoop_skip attempts elapsedAt maxWait n 0 (fuel + 1) ?_
    · rw [h, Nat.zero_add]
    · intro k hk
      have h2 := hpre k hk
      rw [Nat.zero_add]
      exact h2
  constructor
  · intro r hr
    rw [SlurmJob.update, show n + fuel + 1 = n + (fuel + 1) by omega, hskip,
        updateLoop, hr]
  · intro e he hel
    rw [SlurmJob.update, show n + fuel + 1 = n + (fuel + 1) by omega, hskip,
        updateLoop, he]
    simp [hel]

/-- C4 witness: two failing attempts within the bound followed by a
success store the new record; two failing attempts within the bound
followed by a failure past the bound re-raise the last error and leave
the handle unchanged. -/
theorem update_retries_and_raises_last_witness :
    SlurmJob.update ⟨5, [], []⟩
      (fun i => if i < 2 then Except.error (SacctError.noRecords 5)
                else Except.ok [("State", "COMPLETED")])
      (fun i => i) 3600 3 =
      some (⟨5, [], [("State", "COMPLETED")]⟩, none) ∧
    SlurmJob.update ⟨5, [], []⟩
      (fun _ => Except.error (SacctError.noRecords 5))
      (fun i => 2000 * i) 3600 3 =
      some (⟨5, [], []⟩, some (SacctError.noRecords 5)) := by
  constructor
  · refine (update_retries_and_raises_last ⟨5, [], []⟩ _ (fun i => i) 3600 2 0
      ?_).1 [("State", "COMPLETED")] rfl
    intro k hk
    exact ⟨⟨SacctError.noRecords 5, by simp [hk]⟩, by show k ≤ 3600; omega⟩
  · refine (update_retries_and_raises_last ⟨5, [], []⟩ _ (fun i => 2000 * i)
      3600 2 0 ?_).2 (SacctError.noRecords 5) rfl (by norm_num)
    intro k hk
    exact ⟨⟨SacctError.noRecords 5, rfl⟩, by show 2000 * k ≤ 3600; omega⟩

/-! ## The blocking wait helper (`wait_for`) -/

/-- A job handle argument as seen by `wait_for`: its id, its status at
entry, and the status that the `job.update()` call of polling iteration
`n` would store. -/
structure Handle where
  jid : Nat
  initStatus : String
  statusAt : Nat → String

/-- An argument to `wait_for`: a `SlurmJob` handle, or a bare integer
job id (any non-handle argument, after the `int(job)` conversion). -/
inductive WaitArg where
  | handle (h : Handle)
  | bareId (n : Nat)

/-- The `int(job)` conversion applied to one argument: the jid of a
handle, and the integer value of a bare id. -/
def waitArgJid : WaitArg → Nat
  | WaitArg.handle h => h.jid
  | WaitArg.bareId n => n

/-- The `jids` list computed at the top of `wait_for`. The polling loop
below never consults it: it iterates over the original arguments. -/
def wait_for_jids (args : List WaitArg) : List Nat := args.map waitArgJid

/-- The exceptions `wait_for` can raise: `ValueError` for an empty
argument list, `AttributeError` from calling `update` on a bare id, and
`TimeoutError` from the deadline. -/
inductive WaitError where
  | noJobs
  | attrError
  | timeoutError
  deriving Repr, DecidableEq

/-- One tracked argument: the argument itself, its tracker flag
(`tracker[job]`), and the status its handle last observed. -/
abbrev TrackEntry := WaitArg × Bool × String

/-- Initial tracker state: `tracker = dict with True for each job`. -/
def initEntry : WaitArg → TrackEntry
  | WaitArg.handle h => (WaitArg.handle h, true, h.initStatus)
  | WaitArg.bareId n => (WaitArg.bareId n, true, "")

/-- One pass of the inner `for job in incomplete.keys()` loop at
iteration `iter`. Entries whose flag is cleared are skipped. A flagged
bare id raises `AttributeError` at its `update` call, leaving it and
later entries untouched. A flagged handle is updated and its flag set to
`is_active`; immediately afterwards the (iteration-constant) timeout
test `hit` raises `TimeoutError` when true. -/
def stepEntries (iter : Nat) (hit : Bool) :
    List TrackEntry → List TrackEntry × Option WaitError
  | [] => ([], none)
  | (arg, flag, st) :: rest =>
    if flag then
      match arg with
      | WaitArg.bareId n =>
        ((WaitArg.bareId n, flag, st) :: rest, some WaitError.attrError)
      | WaitArg.handle h =>
        let st2 := h.statusAt iter
        if hit then
          ((WaitArg.handle h, isActiveState st2, st2) :: rest,
           some WaitError.timeoutError)
        else
          let p := stepEntries iter hit rest
          ((WaitArg.handle h, isActiveState st2, st2) :: p.1, p.2)
    else
      let p := stepEntries iter hit rest
      ((arg, flag, st) :: p.1, p.2)

/-- The outer `while 1` loop of `wait_for`, fuel-indexed. `elapsedAt i`
is the elapsed clock reading taken at the top of iteration `i`. The loop
breaks once every tracker flag is cleared; otherwise it processes the
still-flagged entries and propagates any raised error. -/
def waitForLoop (timeout : Option Nat) (elapsedAt : Nat → Nat) :
    Nat → Nat → List TrackEntry → Option (List TrackEntry × Option WaitError)
  | 0, _, _ => none
  | fuel + 1, iter, entries =>
    if entries.all (fun e => !e.2.1) then some (entries, none)
    else
      match stepEntries iter (timeoutTruthy timeout (elapsedAt iter)) entries with
      | (es2, some e) => some (es2, some e)
      | (es2, none) => waitForLoop timeout elapsedAt fuel (iter + 1) es2

/-- `wait_for`: an empty argument list raises `ValueError`; otherwise
the polling loop runs on the original arguments (the converted `jids`
list is dead). -/
def wait_for : List WaitArg → Option Nat → (Nat → Nat) → Nat →
    Option (List TrackEntry × Option WaitError)
  | [], _, _, _ => some ([], some WaitError.noJobs)
  | args, timeout, elapsedAt, fuel =>
    waitForLoop timeout elapsedAt fuel 0 (args.map initEntry)

/-- Helper: the inner loop never changes which arguments are tracked. -/
theorem stepEntries_fst (iter : Nat) (hit : Bool) (entries : List TrackEntry) :
    (stepEntries iter hit entries).1.map Prod.fst = entries.map Prod.fst := by
  induction entries with
  | nil => rfl
  | cons e rest ih =>
    obtain ⟨arg, flag, st⟩ := e
    cases flag with
    | false => simp [stepEntries, ih]
    | true =>
      cases arg with
      | bareId n => simp [stepEntries]
      | handle h =>
        cases hit with
        | true => simp [stepEntries]
        | false => simp [stepEntries, ih]

/-- Helper: a cleared flag always certifies a non-active observed
status, and the inner loop preserves this. -/
theorem stepEntries_inv (iter : Nat) (hit : Bool) (entries : List TrackEntry)
    (hinv : ∀ e ∈ entries, e.2.1 = false → isActiveState e.2.2 = false) :
    ∀ e ∈ (stepEntries iter hit entries).1,
      e.2.1 = false → isActiveState e.2.2 = false := by
  induction entries with
  | nil => intro e he; simp [stepEntries] at he
  | cons e0 rest ih =>
    obtain ⟨arg, flag, st⟩ := e0
    have hrest : ∀ e ∈ rest, e.2.1 = false → isActiveState e.2.2 = false :=
      fun e he => hinv e (List.mem_cons_of_mem _ he)
    have hhead := hinv (arg, flag, st) (List.mem_cons_self _ _)
    cases flag with
    | false =>
      simp only [stepEntries, Bool.false_eq_true, if_false]
      intro e he
      rcases List.mem_cons.mp he with h1 | h1
      · subst h1; exact hhead
      · exact ih hrest e h1
    | true =>
      cases arg with
      | bareId n =>
        simp only [stepEntries, if_true]
        intro e he
        rcases List.mem_cons.mp he with h1 | h1
        · subst h1; intro hc; cases hc
        · exact hrest e h1
      | handle h =>
        cases hit with
        | true =>
          simp only [stepEntries, if_true]
          intro e he
          rcases List.mem_cons.mp he with h1 | h1
          · subst h1; intro hfl; exact hfl
          · exact hrest e h1
        | false =>
          simp only [stepEntries, if_true, Bool.false_eq_true, if_false]
          intro e he
          rcases List.mem_cons.mp he with h1 | h1
          · subst h1; intro hfl; exact hfl
          · exact ih hrest e h1

/-- Helper: when the outer loop returns normally, every tracked entry
has a cleared flag certifying a non-active last status, and the tracked
arguments are exactly the initial ones. -/
theorem waitForLoop_ok (timeout : Option Nat) (elapsedAt : Nat → Nat) :
    ∀ fuel iter entries es,
      (∀ e ∈ entries, e.2.1 = false → isActiveState e.2.2 = false) →
      waitForLoop timeout elapsedAt fuel iter entries = some (es, none) →
      (∀ e ∈ es, isActiveState e.2.2 = false) ∧
        es.map Prod.fst = entries.map Prod.fst := by
  intro fuel
  induction fuel with
  | zero => intro iter entries es _ heq; cases heq
  | succ f ih =>
    intro iter entries es hinv hg
    rw [waitForLoop] at hg
    by_cases hall : entries.all (fun e => !e.2.1) = true
    · rw [if_pos hall] at hg
      simp only [Option.some.injEq, Prod.mk.injEq, and_true] at hg
      subst hg
      refine ⟨?_, rfl⟩
      intro e he
      have hflag : e.2.1 = false := by
        have := List.all_eq_true.mp hall e he
        simpa using this
      exact hinv e he hflag
    · rw [if_neg hall] at hg
      rcases hp : stepEntries iter (timeoutTruthy timeout (elapsedAt iter))
          entries with ⟨es2, err⟩
      rw [hp] at hg
      cases err with
      | none =>
        have hinv2 := stepEntries_inv iter
          (timeoutTruthy timeout (elapsedAt iter)) entries hinv
        rw [hp] at hinv2
        obtain ⟨ha, hb⟩ := ih (iter + 1) es2 es hinv2 hg
        have hfst := stepEntries_fst iter (timeoutTruthy timeout (elapsedAt iter))
          entries
        rw [hp] at hfst
        exact ⟨ha, hb.trans hfst⟩
      | some e2 =>
        simp only [Option.some.injEq, Prod.mk.injEq] at hg
        cases hg.2

/-- Entries that are all flagged handles whose every update observes an
active state. -/
def AllActiveEntries (entries : List TrackEntry) : Prop :=
  ∀ e ∈ entries, e.2.1 = true ∧
    ∃ h, e.1 = WaitArg.handle h ∧ ∀ i, isActiveState (h.statusAt i) = true

/-- Helper: with no timeout hit, a pass over always-active flagged
handles raises nothing and leaves them always-active and flagged. -/
theorem stepEntries_active (iter : Nat) (entries : List TrackEntry)
    (hact : AllActiveEntries entries) :
    (stepEntries iter false entries).2 = none ∧
      AllActiveEntries (stepEntries iter false entries).1 ∧
      (stepEntries iter false entries).1.length = entries.length := by
  induction entries with
  | nil => exact ⟨rfl, fun e he => absurd he (List.not_mem_nil e), rfl⟩
  | cons e0 rest ih =>
    obtain ⟨arg, flag, st⟩ := e0
    obtain ⟨hflag, h, harg, hactive⟩ := hact (arg, flag, st) (List.mem_cons_self _ _)
    have hrest : AllActiveEntries rest :=
      fun e he => hact e (List.mem_cons_of_mem _ he)
    obtain ⟨ih1, ih2, ih3⟩ := ih hrest
    simp only at hflag harg
    subst hflag
    subst harg
    refine ⟨?_, ?_, ?_⟩
    · simp only [stepEntries, if_true, Bool.false_eq_true, if_false]
      exact ih1
    · simp only [stepEntries, if_true, Bool.false_eq_true, if_false]
      intro e he
      rcases List.mem_cons.mp he with h1 | h1
      · subst h1
        exact ⟨hactive iter, h, rfl, hactive⟩
      · exact ih2 e h1
    · simp only [stepEntries, if_true, Bool.false_eq_true, if_false,
        List.length_cons, ih3]

/-- Helper: with the timeout hit, a pass over a nonempty list of
always-active flagged handles raises `TimeoutError`. -/
theorem stepEntries_hit (iter : Nat) (entries : List TrackEntry)
    (hact : AllActiveEntries entries) (hne : entries ≠ []) :
    (stepEntries iter true entries).2 = some WaitError.timeoutError := by
  match entries, hne with
  | (arg, flag, st) :: rest, _ =>
    obtain ⟨hflag, h, harg, _⟩ := hact (arg, flag, st) (List.mem_cons_self _ _)
    simp only at hflag harg
    subst hflag
    subst harg
    simp only [stepEntries, if_true]

/-- Helper: over always-active flagged handles, the outer loop raises
`TimeoutError` at the first iteration whose elapsed reading trips the
truthy timeout test, preserving the tracked arguments. -/
theorem waitForLoop_timeout (timeout : Option Nat) (elapsedAt : Nat → Nat) :
    ∀ N iter entries fuel, AllActiveEntries entries → entries ≠ [] →
      (∀ k < N, timeoutTruthy timeout (elapsedAt (iter + k)) = false) →
      timeoutTruthy timeout (elapsedAt (iter + N)) = true →
      ∃ es, waitForLoop timeout elapsedAt (N + fuel + 1) iter entries =
          some (es, some WaitError.timeoutError) ∧
        es.map Prod.fst = entries.map Prod.fst := by
  intro N
  induction N with
  | zero =>
    intro iter entries fuel hact hne _ hhit
    rw [Nat.add_zero] at hhit
    have hnall : ¬ entries.all (fun e => !e.2.1) = true := by
      match entries, hne with
      | e0 :: rest, _ =>
        obtain ⟨hflag, _⟩ := hact e0 (List.mem_cons_self _ _)
        simp [hflag]
    have hstep := stepEntries_hit iter entries hact hne
    have hfst := stepEntries_fst iter true entries
    rcases hp : stepEntries iter true entries with ⟨es2, err⟩
    rw [hp] at hstep hfst
    refine ⟨es2, ?_, hfst⟩
    rw [show (0 : Nat) + fuel + 1 = fuel + 1 by omega, waitForLoop,
      if_neg hnall, hhit, hp]
    cases err with
    | none => exact Option.noConfusion hstep
    | some e =>
      have he : e = WaitError.timeoutError :=
        Option.some.inj hstep
      rw [he]
  | succ M ih =>
    intro iter entries fuel hact hne hno hhit
    have hfirst : timeoutTruthy timeout (elapsedAt iter) = false := by
      have h0 := hno 0 (Nat.succ_pos M)
      rwa [Nat.add_zero] at h0
    have hnall : ¬ entries.all (fun e => !e.2.1) = true := by
      match entries, hne with
      | e0 :: rest, _ =>
        obtain ⟨hflag, _⟩ := hact e0 (List.mem_cons_self _ _)
        simp [hflag]
    obtain ⟨hs1, hs2, hs3⟩ := stepEntries_active iter entries hact
    have hfst := stepEntries_fst iter false entries
    rcases hp : stepEntries iter false entries with ⟨es3, err⟩
    rw [hp] at hs1 hs2 hs3 hfst
    cases err with
    | some e => exact Option.noConfusion hs1
    | none =>
    have hne2 : es3 ≠ [] := by
      intro hc
      rw [hc] at hfst
      cases entries with
      | nil => exact hne rfl
      | cons e0 r0 => exact List.noConfusion hfst.symm
    have hnoS : ∀ k < M, timeoutTruthy timeout (elapsedAt (iter + 1 + k)) = false := by
      intro k hk
      have h2 := hno (k + 1) (by omega)
      rwa [show iter + (k + 1) = iter + 1 + k by omega] at h2
    have hhitS : timeoutTruthy timeout (elapsedAt (iter + 1 + M)) = true := by
      rwa [show iter + 1 + M = iter + (M + 1) by omega]
    obtain ⟨es, hes, hmap⟩ := ih (iter + 1) es3 fuel hs2 hne2 hnoS hhitS
    refine ⟨es, ?_, hmap.trans hfst⟩
    rw [show M + 1 + fuel + 1 = (M + fuel + 1) + 1 by omega, waitForLoop,
      if_neg hnall, hfirst, hp]
    exact hes

/-- Helper: tracking starts at the argument itself. -/
theorem initEntry_fst (a : WaitArg) : (initEntry a).1 = a := by
  cases a <;> rfl

/-- Helper: every argument starts flagged. -/
theorem initEntry_flag (a : WaitArg) : (initEntry a).2.1 = true := by
  cases a <;> rfl

/-- Helper: the initial tracker tracks exactly the arguments. -/
theorem map_initEntry_fst (args : List WaitArg) :
    (args.map initEntry).map Prod.fst = args := by
  induction args with
  | nil => rfl
  | cons a as ih => simp [initEntry_fst, ih]

/-- C6: the blocking wait helper raises `ValueError` on an empty
argument list; when it returns normally every tracked job has a
non-active last observed status and the tracked jobs are exactly the
arguments; and over jobs whose every update still observes an active
state it raises `TimeoutError` at the first iteration whose elapsed
reading trips the truthy deadline, with the jobs themselves left in the
tracker (no cancellation of the external jobs exists in the code or the
model). -/
theorem wait_for_blocks_and_times_out :
    (∀ timeout elapsedAt fuel,
      wait_for [] timeout elapsedAt fuel = some ([], some WaitError.noJobs)) ∧
    (∀ args timeout elapsedAt fuel es,
      wait_for args timeout elapsedAt fuel = some (es, none) →
      (∀ e ∈ es, isActiveState e.2.2 = false) ∧ es.map Prod.fst = args) ∧
    (∀ args timeout elapsedAt N fuel, args ≠ [] →
      (∀ a ∈ args, ∃ h, a = WaitArg.handle h ∧
        ∀ i, isActiveState (h.statusAt i) = true) →
      (∀ k < N, timeoutTruthy timeout (elapsedAt k) = false) →
      timeoutTruthy timeout (elapsedAt N) = true →
      ∃ es, wait_for args timeout elapsedAt (N + fuel + 1) =
          some (es, some WaitError.timeoutError) ∧ es.map Prod.fst = args) := by
  refine ⟨fun _ _ _ => rfl, ?_, ?_⟩
  · intro args timeout elapsedAt fuel es hg
    cases args with
    | nil =>
      have : some (([] : List TrackEntry), some WaitError.noJobs) = some (es, none) := hg
      simp only [Option.some.injEq, Prod.mk.injEq] at this
      cases this.2
    | cons a as =>
      have hinv : ∀ e ∈ (a :: as).map initEntry,
          e.2.1 = false → isActiveState e.2.2 = false := by
        intro e he hf
        obtain ⟨b, _, rfl⟩ := List.mem_map.mp he
        rw [initEntry_flag] at hf
        cases hf
      have hg2 : waitForLoop timeout elapsedAt fuel 0 ((a :: as).map initEntry)
          = some (es, none) := hg
      obtain ⟨ha, hb⟩ := waitForLoop_ok timeout elapsedAt fuel 0
        ((a :: as).map initEntry) es hinv hg2
      exact ⟨ha, hb.trans (map_initEntry_fst (a :: as))⟩
  · intro args timeout elapsedAt N fuel hne hAll hno hhit
    cases args with
    | nil => exact absurd rfl hne
    | cons a as =>
      have hact : AllActiveEntries ((a :: as).map initEntry) := by
        intro e he
        obtain ⟨b, hb, rfl⟩ := List.mem_map.mp he
        obtain ⟨h, hbh, hactive⟩ := hAll b hb
        subst hbh
        exact ⟨rfl, h, rfl, hactive⟩
      have hne2 : (a :: as).map initEntry ≠ [] := by simp
      have hnoZ : ∀ k < N, timeoutTruthy timeout (elapsedAt (0 + k)) = false := by
        intro k hk
        rw [Nat.zero_add]
        exact hno k hk
      have hhitZ : timeoutTruthy timeout (elapsedAt (0 + N)) = true := by
        rw [Nat.zero_add]
        exact hhit
      obtain ⟨es, hes, hmap⟩ := waitForLoop_timeout timeout elapsedAt N 0
        ((a :: as).map initEntry) fuel hact hne2 hnoZ hhitZ
      exact ⟨es, hes, hmap.trans (map_initEntry_fst (a :: as))⟩

/-- An always-completed handle used to exercise the normal return of
`wait_for`. -/
def exAlwaysDone : Handle := ⟨1, "RUNNING", fun _ => "COMPLETED"⟩

/-- A never-terminating handle used to exercise the timeout of
`wait_for`. -/
def exRunning : Handle := ⟨2, "RUNNING", fun _ => "RUNNING"⟩

/-- C6 witness: one job that completes on its first update makes
`wait_for` return normally tracking exactly that job, and one job that
stays RUNNING makes `wait_for` raise `TimeoutError` once the elapsed
reading exceeds the deadline of 5. -/
theorem wait_for_blocks_and_times_out_witness :
    ([(WaitArg.handle exAlwaysDone, false, "COMPLETED")].map Prod.fst
      = [WaitArg.handle exAlwaysDone]) ∧
    (∃ es, wait_for [WaitArg.handle exRunning] (some 5) (fun i => i) 7 =
      some (es, some WaitError.timeoutError) ∧
      es.map Prod.fst = [WaitArg.handle exRunning]) := by
  constructor
  · exact (wait_for_blocks_and_times_out.2.1 [WaitArg.handle exAlwaysDone] none
      (fun i => i) 3 [(WaitArg.handle exAlwaysDone, false, "COMPLETED")] rfl).2
  · refine wait_for_blocks_and_times_out.2.2 [WaitArg.handle exRunning]
      (some 5) (fun i => i) 6 0 (by simp) ?_ ?_ (by decide)
    · intro a ha
      rw [List.mem_singleton.mp ha]
      exact ⟨exRunning, rfl, fun i => rfl⟩
    · intro k hk
      simp only [timeoutTruthy]
      simp only [Bool.and_eq_false_iff, decide_eq_false_iff_not]
      right
      omega

/-- Helper: with no timeout hit, a pass over all-flagged entries that
contain a bare id raises `AttributeError`. -/
theorem stepEntries_bare (iter : Nat) (entries : List TrackEntry)
    (hflags : ∀ e ∈ entries, e.2.1 = true)
    (hbare : ∃ e ∈ entries, ∃ n, e.1 = WaitArg.bareId n) :
    (stepEntries iter false entries).2 = some WaitError.attrError := by
  induction entries with
  | nil =>
    obtain ⟨e, he, _⟩ := hbare
    exact absurd he (List.not_mem_nil e)
  | cons e0 rest ih =>
    obtain ⟨arg, flag, st⟩ := e0
    have hflag := hflags (arg, flag, st) (List.mem_cons_self _ _)
    simp only at hflag
    subst hflag
    cases arg with
    | bareId n => simp [stepEntries]
    | handle h =>
      simp only [stepEntries, if_true, Bool.false_eq_true, if_false]
      refine ih (fun e he => hflags e (List.mem_cons_of_mem _ he)) ?_
      obtain ⟨e, he, n, hn⟩ := hbare
      rcases List.mem_cons.mp he with h1 | h1
      · rw [h1] at hn
        cases hn
      · exact ⟨e, h1, n, hn⟩

/-- Helper: a pass over all-flagged entries that raises nothing can only
have processed handles. -/
theorem stepEntries_nobare (iter : Nat) (hit : Bool) (entries : List TrackEntry)
    (hflags : ∀ e ∈ entries, e.2.1 = true)
    (hok : (stepEntries iter hit entries).2 = none) :
    ∀ e ∈ entries, ∃ h, e.1 = WaitArg.handle h := by
  induction entries with
  | nil => intro e he; exact absurd he (List.not_mem_nil e)
  | cons e0 rest ih =>
    obtain ⟨arg, flag, st⟩ := e0
    have hflag := hflags (arg, flag, st) (List.mem_cons_self _ _)
    simp only at hflag
    subst hflag
    cases arg with
    | bareId n =>
      rw [show (stepEntries iter hit ((WaitArg.bareId n, true, st) :: rest)).2
          = some WaitError.attrError from by simp [stepEntries]] at hok
      cases hok
    | handle h =>
      cases hit with
      | true =>
        rw [show (stepEntries iter true ((WaitArg.handle h, true, st) :: rest)).2
            = some WaitError.timeoutError from by simp [stepEntries]] at hok
        cases hok
      | false =>
        have hok2 : (stepEntries iter false rest).2 = none := by
          rw [show (stepEntries iter false ((WaitArg.handle h, true, st) :: rest)).2
              = (stepEntries iter false rest).2 from by simp [stepEntries]] at hok
          exact hok
        intro e he
        rcases List.mem_cons.mp he with h1 | h1
        · rw [h1]
          exact ⟨h, rfl⟩
        · exact ih (fun e2 he2 => hflags e2 (List.mem_cons_of_mem _ he2)) hok2 e h1

/-- C10 amended: the argument-to-jid conversion succeeds on every
argument list (it appears to accept bare ids), but the polling loop
calls `update` on the original arguments: any call whose arguments
contain a bare id raises `AttributeError` in its first polling iteration
(after updating whatever handle arguments precede the bare id), and
`wait_for` returns normally only when every argument is a handle. -/
theorem wait_for_needs_handles :
    (∀ args, (wait_for_jids args).length = args.length) ∧
    (∀ args timeout elapsedAt fuel,
      (∃ n, WaitArg.bareId n ∈ args) →
      timeoutTruthy timeout (elapsedAt 0) = false →
      ∃ es, wait_for args timeout elapsedAt (fuel + 1) =
        some (es, some WaitError.attrError)) ∧
    (∀ args timeout elapsedAt fuel es,
      wait_for args timeout elapsedAt fuel = some (es, none) →
      ∀ a ∈ args, ∃ h, a = WaitArg.handle h) := by
  refine ⟨fun args => List.length_map args waitArgJid, ?_, ?_⟩
  · intro args timeout elapsedAt fuel hbare hnohit
    cases args with
    | nil =>
      obtain ⟨n, hn⟩ := hbare
      exact absurd hn (List.not_mem_nil _)
    | cons a as =>
      have hflags : ∀ e ∈ (a :: as).map initEntry, e.2.1 = true := by
        intro e he
        obtain ⟨b, _, rfl⟩ := List.mem_map.mp he
        exact initEntry_flag b
      have hnall : ¬ ((a :: as).map initEntry).all (fun e => !e.2.1) = true := by
        intro hc
        have h0 := List.all_eq_true.mp hc (initEntry a)
          (List.mem_map_of_mem initEntry (List.mem_cons_self a as))
        rw [initEntry_flag] at h0
        cases h0
      have hbare2 : ∃ e ∈ (a :: as).map initEntry, ∃ n, e.1 = WaitArg.bareId n := by
        obtain ⟨n, hn⟩ := hbare
        refine ⟨initEntry (WaitArg.bareId n),
          List.mem_map_of_mem initEntry hn, n, rfl⟩
      have hstep := stepEntries_bare 0 ((a :: as).map initEntry) hflags hbare2
      have hg : wait_for (a :: as) timeout elapsedAt (fuel + 1)
          = waitForLoop timeout elapsedAt (fuel + 1) 0 ((a :: as).map initEntry) :=
        rfl
      rcases hp : stepEntries 0 false ((a :: as).map initEntry) with ⟨es2, err⟩
      rw [hp] at hstep
      refine ⟨es2, ?_⟩
      rw [hg, waitForLoop, if_neg hnall, hnohit, hp]
      cases err with
      | none => exact Option.noConfusion hstep
      | some e =>
        have he : e = WaitError.attrError := Option.some.inj hstep
        rw [he]
  · intro args timeout elapsedAt fuel es hg
    cases args with
    | nil => intro a ha; exact absurd ha (List.not_mem_nil a)
    | cons a as =>
      cases fuel with
      | zero => cases hg
      | succ f =>
        have hflags : ∀ e ∈ (a :: as).map initEntry, e.2.1 = true := by
          intro e he
          obtain ⟨b, _, rfl⟩ := List.mem_map.mp he
          exact initEntry_flag b
        have hnall : ¬ ((a :: as).map initEntry).all (fun e => !e.2.1) = true := by
          intro hc
          have h0 := List.all_eq_true.mp hc (initEntry a)
            (List.mem_map_of_mem initEntry (List.mem_cons_self a as))
          rw [initEntry_flag] at h0
          cases h0
        have hg2 : waitForLoop timeout elapsedAt (f + 1) 0 ((a :: as).map initEntry)
            = some (es, none) := hg
        rw [waitForLoop, if_neg hnall] at hg2
        rcases hp : stepEntries 0 (timeoutTruthy timeout (elapsedAt 0))
            ((a :: as).map initEntry) with ⟨es2, err⟩
        rw [hp] at hg2
        cases err with
        | some e =>
          simp only [Option.some.injEq, Prod.mk.injEq] at hg2
          cases hg2.2
        | none =>
          have hok : (stepEntries 0 (timeoutTruthy timeout (elapsedAt 0))
              ((a :: as).map initEntry)).2 = none := by rw [hp]
          have hall := stepEntries_nobare 0 (timeoutTruthy timeout (elapsedAt 0))
            ((a :: as).map initEntry) hflags hok
          intro b hb
          obtain ⟨h, hh⟩ := hall (initEntry b) (List.mem_map_of_mem initEntry hb)
          rw [initEntry_fst] at hh
          exact ⟨h, hh⟩

/-- A handle that first reports PENDING and whose updates observe
RUNNING, placed before a bare id to show tracking precedes the failure. -/
def exPending : Handle := ⟨1, "PENDING", fun _ => "RUNNING"⟩

/-- C10 counterexample: a call whose arguments are a handle followed by
a bare id does raise `AttributeError`, but not before tracking a status:
the leading handle has already been updated (its observed status moved
from PENDING to RUNNING and its flag recomputed) when the bare id raises. -/
theorem bare_id_fails_after_tracking :
    (wait_for [WaitArg.handle exPending, WaitArg.bareId 7] none (fun _ => 0) 3).map
        (fun p => (p.1.map (fun e => (e.2.1, e.2.2)), p.2)) =
      some ([(true, "RUNNING"), (true, "")], some WaitError.attrError) ∧
    exPending.initStatus = "PENDING" :=
  ⟨rfl, rfl⟩

/-- A completing handle used to exercise the all-handles normal return. -/
def exDone : Handle := ⟨3, "RUNNING", fun _ => "COMPLETED"⟩

/-- C10 witness: a lone bare id raises `AttributeError`, and a normal
return on a lone completing handle certifies that the argument is a
handle. -/
theorem wait_for_needs_handles_witness :
    (∃ es, wait_for [WaitArg.bareId 7] none (fun _ => 0) 1 =
      some (es, some WaitError.attrError)) ∧
    (∃ h, WaitArg.handle exDone = WaitArg.handle h) :=
  ⟨wait_for_needs_handles.2.1 [WaitArg.bareId 7] none (fun _ => 0) 0
      ⟨7, by simp⟩ (by decide),
   wait_for_needs_handles.2.2 [WaitArg.handle exDone] none (fun i => i) 3
      [(WaitArg.handle exDone, false, "COMPLETED")] rfl
      (WaitArg.handle exDone) (by simp)⟩

/-! ## Submission (`sbatch`) and its output parsing -/

/-- The whitespace characters stripped by the Python `str.strip()`. -/
def isPySpace (c : Char) : Bool :=
  c = ' ' || c = '\t' || c = '\n' || c = '\r' ||
  c = Char.ofNat 11 || c = Char.ofNat 12

/-- `str.strip()`: drop whitespace from both ends. -/
def pyStrip (s : List Char) : List Char :=
  ((s.dropWhile isPySpace).reverse.dropWhile isPySpace).reverse

/-- `str.partition(sep)`, keeping the before and after parts: splitting
happens at the first occurrence of the separator, and a string without
the separator yields itself and an empty after part. -/
def pyPartition (sep : Char) : List Char → List Char × List Char
  | [] => ([], [])
  | c :: cs =>
    if c = sep then ([], cs)
    else ((c :: (pyPartition sep cs).1), (pyPartition sep cs).2)

/-- `jid, _, cluster = stdout.decode().strip().partition(chr(59))`. -/
def sbatchParse (stdout : List Char) : List Char × List Char :=
  pyPartition ';' (pyStrip stdout)

/-- The result of the submit subprocess. -/
structure CmdResult where
  returncode : Int
  stdout : List Char
  deriving Repr, DecidableEq

/-- The exceptions `sbatch` can raise: `ChildProcessError(str(vars(p)))`
on a nonzero return code, `ValueError` from `int(jid)` on unparsable
output, and a propagated `SacctOutput` from the initial `update()` run
by the `SlurmJob` constructor. -/
inductive SbatchError where
  | submissionError (res : CmdResult)
  | valueError
  | accounting (e : SacctError)
  deriving Repr, DecidableEq

/-- `sbatch`: a nonzero return code raises `ChildProcessError` embedding
the command result; otherwise the stripped stdout is partitioned at the
first separator into jid and cluster and `SlurmJob(jid, cluster=cluster)`
is constructed, whose `__init__` converts the jid with `int` and, since
no sacct record is supplied, runs `update()` (parameterised here by the
attempt stream, the clock and the bound, as in `updateLoop`). -/
def sbatch (res : CmdResult) (attempts : Nat → Except SacctError Record)
    (elapsedAt : Nat → Nat) (maxWait : Nat) (fuel : Nat) :
    Option (Except SbatchError SlurmJob) :=
  if res.returncode ≠ 0 then
    some (Except.error (SbatchError.submissionError res))
  else
    match intOfChars (sbatchParse res.stdout).1 with
    | none => some (Except.error SbatchError.valueError)
    | some jid =>
      match updateLoop attempts elapsedAt maxWait fuel 0 with
      | none => none
      | some (UpdateOutcome.updated r) =>
        some (Except.ok ⟨jid, (sbatchParse res.stdout).2, r⟩)
      | some (UpdateOutcome.raised e) =>
        some (Except.error (SbatchError.accounting e))

/-- C7 counterexample: with a zero return code and well-formed output,
`sbatch` can still raise: the constructor-run accounting update fails
past the elapsed bound and its `SacctOutput` propagates, so a zero
return code does not guarantee that a handle is returned and nothing is
raised. -/
theorem sbatch_raises_on_zero_returncode :
    sbatch ⟨0, ['1', ';', 'c']⟩ (fun _ => Except.error (SacctError.noRecords 1))
      (fun i => 4000 * i) 3600 2 =
      some (Except.error (SbatchError.accounting (SacctError.noRecords 1))) := rfl

/-- C7 amended: `sbatch` raises the submission error, embedding the raw
command result, exactly when the submit command returns nonzero; on a
zero return code no submission error is possible, and when the jid
parses and the initial accounting update succeeds, `sbatch` returns the
job handle (the update may instead raise its own accounting error). -/
theorem sbatch_submission_error_iff (res : CmdResult)
    (attempts : Nat → Except SacctError Record) (elapsedAt : Nat → Nat)
    (maxWait fuel : Nat) :
    (res.returncode ≠ 0 →
      sbatch res attempts elapsedAt maxWait fuel =
        some (Except.error (SbatchError.submissionError res))) ∧
    (∀ r, sbatch res attempts elapsedAt maxWait fuel =
        some (Except.error (SbatchError.submissionError r)) →
      res.returncode ≠ 0 ∧ r = res) ∧
    (res.returncode = 0 →
      ∀ jid, intOfChars (sbatchParse res.stdout).1 = some jid →
      ∀ rec, updateLoop attempts elapsedAt maxWait fuel 0 =
          some (UpdateOutcome.updated rec) →
      sbatch res attempts elapsedAt maxWait fuel =
        some (Except.ok ⟨jid, (sbatchParse res.stdout).2, rec⟩)) := by
  refine ⟨?_, ?_, ?_⟩
  · intro hrc
    rw [sbatch, if_pos hrc]
  · intro r hr
    by_cases hrc : res.returncode ≠ 0
    · rw [sbatch, if_pos hrc] at hr
      simp only [Option.some.injEq, Except.error.injEq,
        SbatchError.submissionError.injEq] at hr
      exact ⟨hrc, hr.symm⟩
    · rw [sbatch, if_neg hrc] at hr
      rcases h1 : intOfChars (sbatchParse res.stdout).1 with _ | jid
      · rw [h1] at hr
        simp only [Option.some.injEq, Except.error.injEq] at hr
        cases hr
      · rw [h1] at hr
        rcases h2 : updateLoop attempts elapsedAt maxWait fuel 0 with _ | out
        · rw [h2] at hr
          cases hr
        · rw [h2] at hr
          cases out with
          | updated rec =>
            simp only [Option.some.injEq] at hr
            cases hr
          | raised e =>
            simp only [Option.some.injEq, Except.error.injEq] at hr
            cases hr
  · intro hrc jid h1 rec h2
    rw [sbatch, if_neg (fun hc => hc hrc), h1, h2]

/-- C7 witness: a nonzero return code raises the submission error, and a
zero return code with a parsable jid and a first-try accounting success
returns the handle. -/
theorem sbatch_submission_error_iff_witness :
    sbatch ⟨1, []⟩ (fun _ => Except.ok []) (fun i => i) 3600 1 =
      some (Except.error (SbatchError.submissionError ⟨1, []⟩)) ∧
    sbatch ⟨0, ['2', ';', 'x']⟩ (fun _ => Except.ok [("State", "RUNNING")])
        (fun i => i) 3600 1 =
      some (Except.ok ⟨2, ['x'], [("State", "RUNNING")]⟩) :=
  ⟨(sbatch_submission_error_iff ⟨1, []⟩ (fun _ => Except.ok []) (fun i => i)
      3600 1).1 (by decide),
   (sbatch_submission_error_iff ⟨0, ['2', ';', 'x']⟩
      (fun _ => Except.ok [("State", "RUNNING")]) (fun i => i) 3600 1).2.2
      rfl 2 rfl [("State", "RUNNING")] rfl⟩

/-- Helper: partition of a separator-free string. -/
theorem pyPartition_no_sep (sep : Char) :
    ∀ s : List Char, sep ∉ s → pyPartition sep s = (s, []) := by
  intro s
  induction s with
  | nil => intro _; rfl
  | cons c cs ih =>
    intro h
    have hc : ¬ c = sep := fun hc => h (hc ▸ List.mem_cons_self c cs)
    have hcs : sep ∉ cs := fun hm => h (List.mem_cons_of_mem c hm)
    rw [pyPartition, if_neg hc, ih hcs]

/-- Helper: partition splits at the first occurrence of the separator. -/
theorem pyPartition_first (sep : Char) :
    ∀ a b : List Char, sep ∉ a → pyPartition sep (a ++ sep :: b) = (a, b) := by
  intro a
  induction a with
  | nil =>
    intro b _
    rw [List.nil_append, pyPartition, if_pos rfl]
  | cons c cs ih =>
    intro b h
    have hc : ¬ c = sep := fun hc => h (hc ▸ List.mem_cons_self c cs)
    have hcs : sep ∉ cs := fun hm => h (List.mem_cons_of_mem c hm)
    rw [List.cons_append, pyPartition, if_neg hc, ih b hcs]

/-- C8: the submit output is parsed by splitting the stripped stdout at
the first separator: when the stripped output is `id;cluster` (with no
separator in `id`) the parse yields `(id, cluster)` and the constructed
handle carries the integer value of `id` as jid and `cluster` as the
cluster qualifier; when the stripped output has no separator the parse
yields the whole output with an empty cluster qualifier. -/
theorem sbatch_parses_output (s id cl : List Char) :
    (pyStrip s = id ++ ';' :: cl → ';' ∉ id →
      sbatchParse s = (id, cl) ∧
      ∀ n attempts elapsedAt maxWait fuel rec,
        intOfChars id = some n →
        updateLoop attempts elapsedAt maxWait fuel 0 =
          some (UpdateOutcome.updated rec) →
        sbatch ⟨0, s⟩ attempts elapsedAt maxWait fuel =
          some (Except.ok ⟨n, cl, rec⟩)) ∧
    (pyStrip s = id → ';' ∉ id →
      sbatchParse s = (id, []) ∧
      ∀ n attempts elapsedAt maxWait fuel rec,
        intOfChars id = some n →
        updateLoop attempts elapsedAt maxWait fuel 0 =
          some (UpdateOutcome.updated rec) →
        sbatch ⟨0, s⟩ attempts elapsedAt maxWait fuel =
          some (Except.ok ⟨n, [], rec⟩)) := by
  constructor
  · intro hstrip hid
    have hparse : sbatchParse s = (id, cl) := by
      rw [sbatchParse, hstrip, pyPartition_first ';' id cl hid]
    refine ⟨hparse, ?_⟩
    intro n attempts elapsedAt maxWait fuel rec hn hup
    rw [sbatch, if_neg (fun hc => hc rfl)]
    rw [show (CmdResult.mk 0 s).stdout = s from rfl, hparse]
    rw [show ((id, cl) : List Char × List Char).1 = id from rfl, hn, hup]
  · intro hstrip hid
    have hparse : sbatchParse s = (id, []) := by
      rw [sbatchParse, hstrip, pyPartition_no_sep ';' id hid]
    refine ⟨hparse, ?_⟩
    intro n attempts elapsedAt maxWait fuel rec hn hup
    rw [sbatch, if_neg (fun hc => hc rfl)]
    rw [show (CmdResult.mk 0 s).stdout = s from rfl, hparse]
    rw [show ((id, []) : List Char × List Char).1 = id from rfl, hn, hup]

/-- C8 witness: output `4;c` with a trailing newline strips and splits
into id 4 and cluster `c`, the constructed handle carries them, and
separator-free output `9` yields an empty cluster qualifier. -/
theorem sbatch_parses_output_witness :
    sbatchParse ['4', ';', 'c', '\n'] = (['4'], ['c']) ∧
    sbatch ⟨0, ['4', ';', 'c', '\n']⟩ (fun _ => Except.ok [("State", "PENDING")])
        (fun i => i) 3600 1 =
      some (Except.ok ⟨4, ['c'], [("State", "PENDING")]⟩) ∧
    sbatchParse ['9'] = (['9'], []) :=
  ⟨((sbatch_parses_output ['4', ';', 'c', '\n'] ['4'] ['c']).1 rfl (by decide)).1,
   ((sbatch_parses_output ['4', ';', 'c', '\n'] ['4'] ['c']).1 rfl (by decide)).2
     4 (fun _ => Except.ok [("State", "PENDING")]) (fun i => i) 3600 1
     [("State", "PENDING")] rfl rfl,
   ((sbatch_parses_output ['9'] ['9'] []).2 rfl (by decide)).1⟩

/-! ## Environment-derived polling configuration -/

/-- A Python value as stored in the two module-level configuration
globals: an int (the built-in default) or a str (an environment
variable's value). -/
inductive PyVal where
  | intv (n : Nat)
  | strv (s : String)
  deriving Repr, DecidableEq

/-- `os.environ.get(name, default)`: the default when the variable is
unset, the raw string value otherwise. -/
def environGet (env : Option String) (default : PyVal) : PyVal :=
  match env with
  | none => default
  | some s => PyVal.strv s

/-- `os.environ.get` applied to SLURM_UPDATE_FREQUENCY with default 1. -/
def update_frequency (env : Option String) : PyVal :=
  environGet env (PyVal.intv 1)

/-- `os.environ.get` applied to SLURM_MAX_UPDATE_WAIT with default 3600. -/
def max_update_wait (env : Option String) : PyVal :=
  environGet env (PyVal.intv 3600)

/-- The `TypeError` raised by Python 3 operations on ill-typed operands. -/
inductive PyTypeError where
  | typeError
  deriving Repr, DecidableEq

/-- Python 3 semantics of the comparison `elapsed > _max_update_wait`
with a numeric left operand: comparing against an int succeeds, ordering
a number against a str raises `TypeError`. -/
def pyGtNum (x : Nat) : PyVal → Except PyTypeError Bool
  | PyVal.intv n => Except.ok (decide (x > n))
  | PyVal.strv _ => Except.error PyTypeError.typeError

/-- Python 3 semantics of `time.sleep(_update_frequency)`: sleeping for
an int succeeds, a str operand raises `TypeError`. -/
def pySleep : PyVal → Except PyTypeError Unit
  | PyVal.intv _ => Except.ok ()
  | PyVal.strv _ => Except.error PyTypeError.typeError

/-- C9: with both environment variables unset the configuration globals
are the integers 1 and 3600, the retry bound comparison evaluates and
the inter-attempt sleep succeeds; with either variable set its value is
a string, so the comparison in `update` and the sleep in `query_sacct`
raise `TypeError` instead of bounding the retry or sleeping. -/
theorem env_strings_break_polling :
    (update_frequency none = PyVal.intv 1 ∧
      max_update_wait none = PyVal.intv 3600) ∧
    (∀ x, pyGtNum x (max_update_wait none) = Except.ok (decide (x > 3600))) ∧
    pySleep (update_frequency none) = Except.ok () ∧
    (∀ s x, pyGtNum x (max_update_wait (some s)) =
      Except.error PyTypeError.typeError) ∧
    (∀ s, pySleep (update_frequency (some s)) =
      Except.error PyTypeError.typeError) :=
  ⟨⟨rfl, rfl⟩, fun _ => rfl, rfl, fun _ _ => rfl, fun _ => rfl⟩

end Slurm
